import Mathlib

/-!
Shallow embedding of `src/src/main.rs` of stumpapp/ebook-sorter: a CLI tool
that walks a directory tree for `.epub` files, extracts metadata, and
copies or moves each file into an author-named subdirectory of the output
directory, accumulating per-file errors and rendering them as a table.

Paths are modelled as lists of components (mirroring `std::path`), the
filesystem as a partial map from paths to byte lists plus a set of
directories, and fallible external operations (metadata extraction,
directory creation, copy, rename) as explicit parameters.
-/

/-- One component of a filesystem path, mirroring `std::path::Component`
(Windows prefixes omitted). -/
inductive Component where
  | rootDir : Component
  | curDir : Component
  | parentDir : Component
  | normal : String → Component
deriving DecidableEq, BEq

/-- A filesystem path: its list of components, mirroring `std::path::Path`. -/
structure RPath where
  components : List Component
deriving DecidableEq, BEq

/-- Models `Path::file_name`: the last component when it is a normal
component, `None` otherwise (paths ending in `..`, the root, etc.). -/
def RPath.fileName (p : RPath) : Option String :=
  match p.components.getLast? with
  | some (Component.normal s) => some s
  | _ => none

/-- Split a character list at its last `.`: returns the parts before and
after the last dot, or `none` when no dot occurs. -/
def splitLastDot : List Char → Option (List Char × List Char)
  | [] => none
  | c :: cs =>
    match splitLastDot cs with
    | some (b, a) => some (c :: b, a)
    | none => if c = '.' then some ([], cs) else none

/-- Models `std::path`'s `rsplit_file_at_dot` helper: `".."` maps to
`(Some(file), None)`; a file with no dot to `(None, Some(file))`; a file
whose only dot is leading to `(Some(file), None)`; otherwise the pieces
before and after the last dot. -/
def rsplitFileAtDot (file : String) : Option String × Option String :=
  if file = ".." then (some file, none)
  else
    match splitLastDot file.data with
    | none => (none, some file)
    | some (b, a) => if b = [] then (some file, none) else (some ⟨b⟩, some ⟨a⟩)

/-- Models `Path::extension`:
`self.file_name().map(rsplit_file_at_dot).and_then(|(before, after)| before.and(after))`. -/
def RPath.extension (p : RPath) : Option String :=
  match (RPath.fileName p).map rsplitFileAtDot with
  | none => none
  | some (before, after) =>
    match before with
    | none => none
    | some _ => after

/-- Models `Path::to_string_lossy` for rendering a path in the error table. -/
def RPath.toStringLossy (p : RPath) : String :=
  String.intercalate "/" (p.components.map (fun c =>
    match c with
    | Component.rootDir => "/"
    | Component.curDir => "."
    | Component.parentDir => ".."
    | Component.normal s => s))

/-- Models `PathBuf::join` for a relative, single-segment name (the only way
the program uses it: joining one directory or file name onto a path). -/
def RPath.join (p : RPath) (s : String) : RPath :=
  ⟨p.components ++ [Component.normal s]⟩

/-- Models Rust `str::trim`: drop whitespace from both ends. -/
def rustTrim (s : String) : String :=
  ⟨((s.data.dropWhile Char.isWhitespace).reverse.dropWhile Char.isWhitespace).reverse⟩

/-- The metadata mapping produced by the EPUB parser
(`HashMap<String, Vec<String>>`): a key is absent (`none`) or maps to an
ordered list of values, possibly empty. -/
def Metadata : Type := String → Option (List String)

/-- Lines 93–97 of `main.rs`: the author directory name is
`book.metadata.get("creator").map(|c| c.join(", ")).unwrap_or("Unsorted")`. -/
def authorDirName (md : Metadata) : String :=
  ((md "creator").map (String.intercalate ", ")).getD "Unsorted"

/-- Lines 153–158 of `main.rs` (`format_book`): first `title` value trimmed
plus `.epub`, else the entry's file name trimmed. -/
def format_book (md : Metadata) (entryFileName : String) : String :=
  match (md "title").bind List.head? with
  | some title => rustTrim title ++ ".epub"
  | none => rustTrim entryFileName

/-- The kind of a directory entry yielded by the `walkdir` traversal. -/
inductive EntryKind where
  | file : EntryKind
  | dir : EntryKind
  | symlink : EntryKind
deriving DecidableEq, BEq

/-- A `walkdir::DirEntry`: its file type and its path. The program never
inspects the kind; it is carried because the walker yields entries of every
kind. -/
structure Entry where
  kind : EntryKind
  path : RPath
deriving DecidableEq, BEq

/-- Models `DirEntry::file_name`: the final path component, or the full
path when the entry has no file name. -/
def Entry.fileName (e : Entry) : String :=
  match e.path.fileName with
  | some s => s
  | none => e.path.toStringLossy

/-- Line 58 of `main.rs`: the candidate filter
`entry.path().extension() == Some("epub".as_ref())` (the loop at lines
68–74 performs the same case-sensitive comparison). -/
def isEpubCandidate (e : Entry) : Bool :=
  RPath.extension e.path == some "epub"

/-- Lines 35–41 of `main.rs`: the two error kinds accumulated during a run. -/
inductive EbookSortError where
  | invalidEbook : RPath → String → EbookSortError
  | ioError : String → EbookSortError
deriving DecidableEq, BEq

/-- Filesystem state: file contents by path, and the set of existing
directories. -/
structure FS where
  files : RPath → Option (List Nat)
  dirs : List RPath

/-- Modelled from the spec: `create_dir_all` makes the destination
directory exist; file contents are untouched. -/
def FS.createDirAll (fs : FS) (d : RPath) : FS :=
  { fs with dirs := d :: fs.dirs }

/-- Modelled from the spec: `std::fs::copy` duplicates the source file's
bytes to the destination, leaving the source intact. -/
def FS.copy (fs : FS) (src dst : RPath) : FS :=
  { fs with files := fun p => if p = dst then fs.files src else fs.files p }

/-- Modelled from the spec: `std::fs::rename` relocates the source to the
destination, removing it from its original location. -/
def FS.rename (fs : FS) (src dst : RPath) : FS :=
  { fs with files := fun p =>
      if p = dst then fs.files src
      else if p = src then none
      else fs.files p }

/-- Modelled from the spec: each filesystem operation may fail with a
human-readable description; the oracle fixes each operation's outcome
(`none` = success). -/
structure FsOracle where
  createDirErr : RPath → Option String
  copyErr : RPath → RPath → Option String
  renameErr : RPath → RPath → Option String

/-- Lines 10–15 of `main.rs`: the placement strategy. -/
inductive PlaceStrategy where
  | copy : PlaceStrategy
  | move : PlaceStrategy
deriving DecidableEq, BEq

/-- Mutable state threaded through the candidate loop: the filesystem, the
accumulated error list (line 52), and the progress-bar position. -/
structure RunState where
  fs : FS
  errors : List EbookSortError
  bar : Nat

/-- Line 99 of `main.rs`: `output.join(creator)`. -/
def authorDirFor (output : RPath) (md : Metadata) : RPath :=
  output.join (authorDirName md)

/-- Lines 107–108 of `main.rs`: `author_dir.join(format_book(&book, &entry))`. -/
def destinationFor (output : RPath) (md : Metadata) (e : Entry) : RPath :=
  (authorDirFor output md).join (format_book md (Entry.fileName e))

/-- Lines 110–125 of `main.rs`: dispatch on the strategy; on failure record
an I/O error and continue without advancing the bar; on success apply the
operation and advance the bar. -/
def placeStep (strategy : PlaceStrategy) (oracle : FsOracle) (src dst : RPath)
    (fs : FS) (errors : List EbookSortError) (bar : Nat) : RunState :=
  match strategy with
  | PlaceStrategy.copy =>
    match oracle.copyErr src dst with
    | some msg => ⟨fs, errors ++ [EbookSortError.ioError msg], bar⟩
    | none => ⟨fs.copy src dst, errors, bar + 1⟩
  | PlaceStrategy.move =>
    match oracle.renameErr src dst with
    | some msg => ⟨fs, errors ++ [EbookSortError.ioError msg], bar⟩
    | none => ⟨fs.rename src dst, errors, bar + 1⟩

/-- Lines 67–126 of `main.rs`: the body of the candidate loop. Entries
whose extension is absent or differs from `"epub"` are skipped; extraction
failure records an invalid-ebook error (path and description) and advances
the bar; otherwise the author directory is created when missing (failure
records an I/O error), and the file is placed by `placeStep`. -/
def processEntry (strategy : PlaceStrategy) (output : RPath)
    (extract : RPath → Except String Metadata) (oracle : FsOracle)
    (st : RunState) (e : Entry) : RunState :=
  match RPath.extension e.path with
  | none => st
  | some ext =>
    if ext = "epub" then
      match extract e.path with
      | Except.error msg =>
        ⟨st.fs, st.errors ++ [EbookSortError.invalidEbook e.path msg], st.bar + 1⟩
      | Except.ok book =>
        let authorDir := authorDirFor output book
        if st.fs.dirs.contains authorDir then
          placeStep strategy oracle e.path (destinationFor output book e)
            st.fs st.errors st.bar
        else
          match oracle.createDirErr authorDir with
          | some msg => ⟨st.fs, st.errors ++ [EbookSortError.ioError msg], st.bar + 1⟩
          | none =>
            placeStep strategy oracle e.path (destinationFor output book e)
              (st.fs.createDirAll authorDir) st.errors st.bar
    else st

/-- Lines 130–148 of `main.rs`: render the accumulated errors as the rows
of a two-column table, in accumulation order: an invalid-ebook error yields
`[description, path]`, an I/O error yields `[description, ""]`. -/
def renderErrorTable (errors : List EbookSortError) : List (List String) :=
  errors.foldl
    (fun rows err =>
      match err with
      | EbookSortError.invalidEbook path msg => rows ++ [[msg, path.toStringLossy]]
      | EbookSortError.ioError msg => rows ++ [[msg, ""]])
    []

/-- Lines 43–151 of `main.rs` (`main`): resolve the root (falling back to
`std::env::current_dir()?` when no `--root` was given), default the output
to the root, count the candidates, build the progress bar from its
template (`?`), fold the candidate loop over the entries, and return
successfully regardless of accumulated per-candidate errors. -/
def runMain (rootArg outputArg : Option RPath) (currentDir : Except String RPath)
    (template : Except String Unit) (strategy : PlaceStrategy)
    (entries : List Entry) (extract : RPath → Except String Metadata)
    (oracle : FsOracle) (fs : FS) : Except String RunState :=
  match (match rootArg with | some r => Except.ok r | none => currentDir) with
  | Except.error msg => Except.error msg
  | Except.ok root =>
    let output := outputArg.getD root
    let _totalFiles := (entries.filter isEpubCandidate).length
    match template with
    | Except.error msg => Except.error msg
    | Except.ok _ =>
      Except.ok (entries.foldl (processEntry strategy output extract oracle) ⟨fs, [], 0⟩)

/-- Whether an `Except` result is a success. -/
def isOkE {α : Type} (x : Except String α) : Bool :=
  match x with
  | Except.ok _ => true
  | Except.error _ => false

/-! Concrete fixtures used by witnesses and counterexamples. -/

/-- Metadata with two creators and a padded title. -/
def mdJane : Metadata := fun k =>
  if k = "creator" then some ["Jane Doe", "John Roe"]
  else if k = "title" then some [" My Story "] else none

/-- The empty metadata mapping. -/
def mdNone : Metadata := fun _ => none

/-- Metadata whose `creator` key is present with an empty value list. -/
def mdEmptyCreator : Metadata := fun k =>
  if k = "creator" then some [] else none

/-- Metadata whose first `title` value is all whitespace. -/
def mdWsTitle : Metadata := fun k =>
  if k = "title" then some ["   "] else none

/-- An output directory path. -/
def outDir : RPath := ⟨[Component.rootDir, Component.normal "out"]⟩

/-- A regular-file entry with extension `epub`. -/
def epubEntry : Entry :=
  ⟨EntryKind.file, ⟨[Component.normal "lib", Component.normal "book1.epub"]⟩⟩

/-- A directory entry whose name nevertheless ends in `.epub`. -/
def dirEpubEntry : Entry := ⟨EntryKind.dir, ⟨[Component.normal "books.epub"]⟩⟩

/-- A regular-file entry with a different extension. -/
def txtEntry : Entry := ⟨EntryKind.file, ⟨[Component.normal "notes.txt"]⟩⟩

/-- An extractor that always fails. -/
def extractFail : RPath → Except String Metadata :=
  fun _ => Except.error "Failed to parse"

/-- An extractor that always succeeds with `mdJane`. -/
def extractJane : RPath → Except String Metadata := fun _ => Except.ok mdJane

/-- A filesystem oracle on which every operation succeeds. -/
def noFailOracle : FsOracle := ⟨fun _ => none, fun _ _ => none, fun _ _ => none⟩

/-- A filesystem holding only `epubEntry`'s file. -/
def fsWithBook : FS :=
  ⟨fun p => if p = epubEntry.path then some [1, 2, 3] else none, []⟩

/-- The initial run state over `fsWithBook`. -/
def initState : RunState := ⟨fsWithBook, [], 0⟩

/-- Metadata of the first colliding candidate: one creator, title `A`. -/
def mdA : Metadata := fun k =>
  if k = "creator" then some ["Jane Doe"]
  else if k = "title" then some ["A"] else none

/-- Metadata of the second colliding candidate: same creator, title `B`. -/
def mdB : Metadata := fun k =>
  if k = "creator" then some ["Jane Doe"]
  else if k = "title" then some ["B"] else none

/-- A candidate that already lives inside the output tree, at the very path
the second candidate's placement will compute as its destination. -/
def entryA : Entry :=
  ⟨EntryKind.file,
    ⟨[Component.rootDir, Component.normal "out", Component.normal "Jane Doe",
      Component.normal "B.epub"]⟩⟩

/-- A second candidate elsewhere in the tree whose title is `B`, so its
computed destination is `out/Jane Doe/B.epub` — `entryA`'s source path. -/
def entryB : Entry :=
  ⟨EntryKind.file, ⟨[Component.normal "in", Component.normal "b.epub"]⟩⟩

/-- A root argument for the colliding run. -/
def inRoot : RPath := ⟨[Component.normal "in"]⟩

/-- An extractor yielding `mdA` for `entryA` and `mdB` elsewhere. -/
def extractAB : RPath → Except String Metadata := fun p =>
  if p = entryA.path then Except.ok mdA else Except.ok mdB

/-- The initial filesystem of the colliding run: `entryA`'s file holds
bytes `[1]`, `entryB`'s file holds bytes `[2]`. -/
def fsTwo : FS :=
  ⟨fun p =>
    if p = entryA.path then some [1]
    else if p = entryB.path then some [2] else none, []⟩

/-- The final state of the copy-strategy run over `entryA` then `entryB`. -/
def twoBookFinal : RunState :=
  [entryA, entryB].foldl
    (processEntry PlaceStrategy.copy outDir extractAB noFailOracle) ⟨fsTwo, [], 0⟩

/-! Claims. -/

/-- Claim C1: when the metadata has a non-empty `creator` value list, the
author directory name is the comma-space join of that list in order; when
the `creator` key is absent it is the literal `"Unsorted"`. -/
theorem claim1_author_dir_name :
    (∀ (md : Metadata) (cs : List String), md "creator" = some cs → cs ≠ [] →
      authorDirName md = String.intercalate ", " cs) ∧
    (∀ md : Metadata, md "creator" = none → authorDirName md = "Unsorted") := by
  constructor
  · intro md cs h _
    simp [authorDirName, h]
  · intro md h
    simp [authorDirName, h]

/-- Witness for C1 at a two-creator metadata and at the empty metadata. -/
theorem claim1_author_dir_name_witness :
    authorDirName mdJane = "Jane Doe, John Roe" ∧ authorDirName mdNone = "Unsorted" :=
  ⟨(claim1_author_dir_name.1 mdJane ["Jane Doe", "John Roe"] (by decide)
      (by decide)).trans (by decide),
   claim1_author_dir_name.2 mdNone rfl⟩

/-- Claim C2: with a `title` key holding at least one value, the destination
filename is the first value trimmed plus `.epub`, whatever the original
filename; with no title value, it is the original file name trimmed. -/
theorem claim2_dest_filename :
    (∀ (md : Metadata) (name : String) (ts : List String) (t : String),
      md "title" = some ts → ts.head? = some t →
      format_book md name = rustTrim t ++ ".epub") ∧
    (∀ (md : Metadata) (name : String), (md "title").bind List.head? = none →
      format_book md name = rustTrim name) := by
  constructor
  · intro md name ts t hts hh
    simp [format_book, hts, hh]
  · intro md name h
    simp [format_book, h]

/-- Witness for C2: a padded title wins over the original filename; with no
title the trimmed original filename is kept, extension included. -/
theorem claim2_dest_filename_witness :
    format_book mdJane "whatever.epub" = "My Story.epub" ∧
    format_book mdNone "  orig.epub " = "orig.epub" :=
  ⟨(claim2_dest_filename.1 mdJane "whatever.epub" [" My Story "] " My Story "
      (by decide) (by decide)).trans (by decide),
   (claim2_dest_filename.2 mdNone "  orig.epub " (by decide)).trans (by decide)⟩

/-- Counterexample to C3 as stated: with `creator` present but empty, the
author directory name is not the sentinel `"Unsorted"`. -/
theorem claim3_counterexample :
    mdEmptyCreator "creator" = some [] ∧ authorDirName mdEmptyCreator ≠ "Unsorted" := by
  decide

/-- Claim C3 (amended): with `creator` present but holding an empty value
list, the author directory name is the empty string — the join of zero
values — which is distinct from the absent-key sentinel `"Unsorted"`. -/
theorem claim3_empty_creator_amended :
    ∀ md : Metadata, md "creator" = some [] →
      authorDirName md = "" ∧ authorDirName md ≠ "Unsorted" := by
  intro md h
  have h1 : authorDirName md = String.intercalate ", " [] := by
    simp [authorDirName, h]
  rw [h1]
  exact ⟨by decide, by decide⟩

/-- Witness for the amended C3 at a concrete metadata mapping. -/
theorem claim3_empty_creator_amended_witness :
    authorDirName mdEmptyCreator = "" ∧ authorDirName mdEmptyCreator ≠ "Unsorted" :=
  claim3_empty_creator_amended mdEmptyCreator (by decide)

/-- Claim C9: every path with `Some` extension also has a `Some` file name,
so the `unwrap()` on `file_name()` behind the extension filter cannot
panic. -/
theorem claim9_filename_unwrap_safe :
    ∀ p : RPath, (RPath.extension p).isSome = true → (RPath.fileName p).isSome = true := by
  intro p h
  cases hf : RPath.fileName p with
  | some s => rfl
  | none =>
    rw [RPath.extension, hf] at h
    simp at h

/-- Witness for C9 at a concrete candidate path. -/
theorem claim9_filename_unwrap_safe_witness :
    (RPath.fileName epubEntry.path).isSome = true :=
  claim9_filename_unwrap_safe epubEntry.path (by decide)

/-- Claim C10: when the first `title` value is entirely whitespace, the
destination filename is exactly `".epub"`, with no fallback to the
original filename. -/
theorem claim10_whitespace_title :
    ∀ (md : Metadata) (name : String) (ts : List String) (t : String),
      md "title" = some ts → ts.head? = some t →
      (∀ c ∈ t.data, c.isWhitespace = true) →
      format_book md name = ".epub" := by
  intro md name ts t hts hh hws
  have hd : t.data.dropWhile Char.isWhitespace = [] := by
    rw [List.dropWhile_eq_nil_iff]
    exact fun c hc => hws c hc
  have h1 : rustTrim t = "" := by
    unfold rustTrim
    rw [hd]
    rfl
  have h2 : format_book md name = rustTrim t ++ ".epub" := by
    simp [format_book, hts, hh]
  rw [h2, h1]
  decide

/-- Witness for C10 at a three-space title. -/
theorem claim10_whitespace_title_witness :
    format_book mdWsTitle "orig name.epub" = ".epub" :=
  claim10_whitespace_title mdWsTitle "orig name.epub" ["   "] "   "
    (by decide) (by decide) (by decide)

/-- Claim C4: when extraction fails for a candidate, exactly one
invalid-ebook error carrying the path and description is appended, the
filesystem is unchanged, and the bar advances (the loop continues). -/
theorem claim4_extraction_failure :
    ∀ (strategy : PlaceStrategy) (output : RPath)
      (extract : RPath → Except String Metadata) (oracle : FsOracle)
      (st : RunState) (e : Entry) (msg : String),
      RPath.extension e.path = some "epub" →
      extract e.path = Except.error msg →
      processEntry strategy output extract oracle st e =
        ⟨st.fs, st.errors ++ [EbookSortError.invalidEbook e.path msg], st.bar + 1⟩ := by
  intro strategy output extract oracle st e msg hext hfail
  simp [processEntry, hext, hfail]

/-- Witness for C4: a failing extractor on a concrete candidate. -/
theorem claim4_extraction_failure_witness :
    processEntry PlaceStrategy.move outDir extractFail noFailOracle initState epubEntry =
      ⟨initState.fs, [EbookSortError.invalidEbook epubEntry.path "Failed to parse"], 1⟩ :=
  claim4_extraction_failure PlaceStrategy.move outDir extractFail noFailOracle initState
    epubEntry "Failed to parse" (by decide) rfl

/-- A copy-strategy step changes no path that is not the candidate's
computed destination: skipping, error recording, and directory creation
leave file contents alone, and `FS.copy` writes only the destination. -/
theorem processEntry_copy_frame :
    ∀ (output : RPath) (extract : RPath → Except String Metadata) (oracle : FsOracle)
      (st : RunState) (e : Entry) (p : RPath),
      (∀ md : Metadata, extract e.path = Except.ok md →
        destinationFor output md e ≠ p) →
      (processEntry PlaceStrategy.copy output extract oracle st e).fs.files p
        = st.fs.files p := by
  intro output extract oracle st e p h
  cases hext : RPath.extension e.path with
  | none => simp [processEntry, hext]
  | some ext =>
    by_cases hepub : ext = "epub"
    · subst hepub
      cases hok : extract e.path with
      | error msg => simp [processEntry, hext, hok]
      | ok md =>
        have hp : p ≠ destinationFor output md e := fun hq => h md hok hq.symm
        cases hdir : st.fs.dirs.contains (authorDirFor output md) <;>
          cases hcd : oracle.createDirErr (authorDirFor output md) <;>
            cases hcp : oracle.copyErr e.path (destinationFor output md e) <;>
              simp [processEntry, hext, hok, hdir, hcd, placeStep, hcp, FS.copy,
                FS.createDirAll, hp]
    · simp [processEntry, hext, hepub]

/-- Counterexample to C5 as stated: in a copy-strategy run over `entryA`
then `entryB` with no failures at all, `entryA` is placed successfully
(zero errors, its duplicate holds its bytes `[1]`), yet at the end of the
run its original path holds `entryB`'s bytes `[2]` instead of `[1]`:
`entryB`'s computed destination collides with `entryA`'s source and the
copy silently overwrites it. -/
theorem claim5_counterexample :
    runMain (some inRoot) (some outDir) (Except.ok inRoot) (Except.ok ())
        PlaceStrategy.copy [entryA, entryB] extractAB noFailOracle fsTwo
      = Except.ok twoBookFinal ∧
    twoBookFinal.errors = [] ∧
    fsTwo.files entryA.path = some [1] ∧
    twoBookFinal.fs.files (destinationFor outDir mdA entryA) = some [1] ∧
    twoBookFinal.fs.files entryA.path = some [2] :=
  ⟨rfl, by decide, by decide, by decide, by decide⟩

/-- Claim C5 (amended): after a copy-strategy run, every path that is not
the computed destination of any successfully extracted candidate holds
exactly its initial content — so a placed candidate's source file is still
unchanged whenever no candidate's computed destination collides with it;
each successful copy placement puts a byte-identical duplicate of the
source at its computed destination while leaving the source unchanged at
that step; and only the move strategy removes the source (a successful
move to a distinct destination deletes it). -/
theorem claim5_copy_run_amended :
    (∀ (output : RPath) (extract : RPath → Except String Metadata)
      (oracle : FsOracle) (entries : List Entry) (st0 : RunState) (p : RPath),
      (∀ e ∈ entries, ∀ md : Metadata, extract e.path = Except.ok md →
        destinationFor output md e ≠ p) →
      (entries.foldl (processEntry PlaceStrategy.copy output extract oracle)
          st0).fs.files p = st0.fs.files p) ∧
    (∀ (output : RPath) (extract : RPath → Except String Metadata)
      (oracle : FsOracle) (st : RunState) (e : Entry) (md : Metadata),
      RPath.extension e.path = some "epub" →
      extract e.path = Except.ok md →
      oracle.createDirErr (authorDirFor output md) = none →
      oracle.copyErr e.path (destinationFor output md e) = none →
      (processEntry PlaceStrategy.copy output extract oracle st e).fs.files e.path
          = st.fs.files e.path ∧
      (processEntry PlaceStrategy.copy output extract oracle st e).fs.files
          (destinationFor output md e) = st.fs.files e.path) ∧
    (∀ (output : RPath) (extract : RPath → Except String Metadata)
      (oracle : FsOracle) (st : RunState) (e : Entry) (md : Metadata),
      RPath.extension e.path = some "epub" →
      extract e.path = Except.ok md →
      oracle.createDirErr (authorDirFor output md) = none →
      oracle.renameErr e.path (destinationFor output md e) = none →
      destinationFor output md e ≠ e.path →
      (processEntry PlaceStrategy.move output extract oracle st e).fs.files e.path
          = none) := by
  refine ⟨?_, ?_, ?_⟩
  · intro output extract oracle entries
    induction entries with
    | nil => intro st0 p h; simp
    | cons e es ih =>
      intro st0 p h
      rw [List.foldl_cons]
      rw [ih (processEntry PlaceStrategy.copy output extract oracle st0 e) p
        (fun x hx => h x (List.mem_cons_of_mem e hx))]
      exact processEntry_copy_frame output extract oracle st0 e p
        (fun md hmd => h e (List.mem_cons_self e es) md hmd)
  · intro output extract oracle st e md hext hok hcd hcp
    cases hdir : st.fs.dirs.contains (authorDirFor output md) <;>
      constructor <;>
        simp [processEntry, hext, hok, hdir, hcd, placeStep, hcp, FS.copy,
          FS.createDirAll, ite_self]
  · intro output extract oracle st e md hext hok hcd hrn hne
    have hne' : e.path ≠ destinationFor output md e := fun h => hne h.symm
    cases hdir : st.fs.dirs.contains (authorDirFor output md) <;>
      simp [processEntry, hext, hok, hdir, hcd, placeStep, hrn, FS.rename,
        FS.createDirAll, hne']

/-- Witness for the amended C5: the frame part at a path no destination
hits, and the step parts on a one-file filesystem with an
always-succeeding oracle. -/
theorem claim5_copy_run_amended_witness :
    (([epubEntry].foldl
        (processEntry PlaceStrategy.copy outDir extractJane noFailOracle)
        initState).fs.files txtEntry.path = initState.fs.files txtEntry.path) ∧
    ((processEntry PlaceStrategy.copy outDir extractJane noFailOracle initState
        epubEntry).fs.files epubEntry.path = initState.fs.files epubEntry.path ∧
     (processEntry PlaceStrategy.copy outDir extractJane noFailOracle initState
        epubEntry).fs.files (destinationFor outDir mdJane epubEntry)
          = initState.fs.files epubEntry.path) ∧
    (processEntry PlaceStrategy.move outDir extractJane noFailOracle initState
        epubEntry).fs.files epubEntry.path = none := by
  refine ⟨?_, ?_, ?_⟩
  · refine claim5_copy_run_amended.1 outDir extractJane noFailOracle [epubEntry]
      initState txtEntry.path ?_
    intro e he md hmd
    rw [List.mem_singleton] at he
    subst he
    have hmd' : mdJane = md := Except.ok.inj hmd
    rw [← hmd']
    decide
  · exact claim5_copy_run_amended.2.1 outDir extractJane noFailOracle initState
      epubEntry mdJane (by decide) rfl rfl rfl
  · exact claim5_copy_run_amended.2.2 outDir extractJane noFailOracle initState
      epubEntry mdJane (by decide) rfl rfl rfl (by decide)

/-- Claim C6: the run succeeds exactly when setup succeeds — the root
resolves (a given root argument, or a readable current directory) and the
progress template parses; per-candidate outcomes never affect the exit. -/
theorem claim6_exit_success :
    ∀ (rootArg outputArg : Option RPath) (currentDir : Except String RPath)
      (template : Except String Unit) (strategy : PlaceStrategy)
      (entries : List Entry) (extract : RPath → Except String Metadata)
      (oracle : FsOracle) (fs : FS),
      isOkE (runMain rootArg outputArg currentDir template strategy entries extract
          oracle fs) = true
        ↔ ((rootArg = none → isOkE currentDir = true) ∧ isOkE template = true) := by
  intro rootArg outputArg currentDir template strategy entries extract oracle fs
  cases rootArg <;> cases currentDir <;> cases template <;>
    simp [runMain, isOkE]

/-- Counterexample to C7 as stated: a directory entry whose name ends in
`.epub` passes the candidate filter and is processed (here, recording an
error), even though it is not a regular file. -/
theorem claim7_counterexample :
    isEpubCandidate dirEpubEntry = true ∧ dirEpubEntry.kind = EntryKind.dir ∧
    (processEntry PlaceStrategy.move outDir extractFail noFailOracle initState
        dirEpubEntry).errors ≠ initState.errors := by
  decide

/-- Claim C7 (amended): every entry whose extension is not exactly `"epub"`
(none, different, or differently cased) is skipped with no error recorded
and no state change; the entry's file kind is never checked, so
directories named `*.epub` are processed like files. -/
theorem claim7_filter_amended :
    ∀ (strategy : PlaceStrategy) (output : RPath)
      (extract : RPath → Except String Metadata) (oracle : FsOracle)
      (st : RunState) (e : Entry),
      RPath.extension e.path ≠ some "epub" →
      processEntry strategy output extract oracle st e = st := by
  intro strategy output extract oracle st e h
  cases hext : RPath.extension e.path with
  | none => simp [processEntry, hext]
  | some ext =>
    have hne : ext ≠ "epub" := fun he => h (by rw [hext, he])
    simp [processEntry, hext, hne]

/-- Witness for the amended C7 at a `.txt` entry. -/
theorem claim7_filter_amended_witness :
    processEntry PlaceStrategy.move outDir extractFail noFailOracle initState txtEntry
      = initState :=
  claim7_filter_amended PlaceStrategy.move outDir extractFail noFailOracle initState
    txtEntry (by decide)

/-- Claim C8: the rendered table has one row per accumulated error, in
recording order: an invalid-ebook error yields its description and source
path, an I/O error its description and the empty string. -/
theorem claim8_error_table :
    ∀ errs : List EbookSortError,
      renderErrorTable errs = errs.map (fun err =>
        match err with
        | EbookSortError.invalidEbook path msg => [msg, path.toStringLossy]
        | EbookSortError.ioError msg => [msg, ""]) := by
  intro errs
  have key : ∀ (l : List EbookSortError) (acc : List (List String)),
      l.foldl (fun rows err =>
        match err with
        | EbookSortError.invalidEbook path msg => rows ++ [[msg, path.toStringLossy]]
        | EbookSortError.ioError msg => rows ++ [[msg, ""]]) acc
        = acc ++ l.map (fun err =>
        match err with
        | EbookSortError.invalidEbook path msg => [msg, path.toStringLossy]
        | EbookSortError.ioError msg => [msg, ""]) := by
    intro l
    induction l with
    | nil => intro acc; simp
    | cons x xs ih =>
      intro acc
      cases x with
      | invalidEbook p m => simp [List.foldl_cons, ih]
      | ioError m => simp [List.foldl_cons, ih]
  simpa [renderErrorTable] using key errs []
